import Mathlib

/-!
Shallow embedding of the metadata-driven CLI/pillar translation pipeline of
`api/python/provisioner/inputs.py` (cortx-prvsnr), covering:

* sentinel value semantics and the CLI string decoders
  (`AttrParserArgs.value_from_str`, `InputAttrParserArgs.value_from_str`);
* the attribute-to-argument translator and `ParserFiller`
  (`prepare_args`, `extract_args`, `from_args`);
* the IPv4 validator `Validation.check_ip4`;
* `ParamsList.from_args` registry resolution;
* `SWUpdateRepo` source normalization and classification;
* `SWUpgradeRepo` / `SWUpgradeRemoveRepo` versioned pillar-value derivation.

Collaborator modules (`values`, `config`, `pillar`, `param`, `serialize`,
the stdlib `ipaddress`) are not part of the translated sources; where a claim
depends on them they are modelled from the specification, as marked by the
doc comments starting with "Modelled from the spec:".
-/

namespace CortxPrvsnr

/-! ## Sentinel values (module `values`) -/

/-- Modelled from the spec: the sentinel singletons of the `values` module
(`UNDEFINED`, `UNCHANGED`, `NONE`) plus the fourth domain-specific
"delete this entry" marker (spec section 4.1). -/
inductive Sentinel where
  | undef
  | unchanged
  | nonev
  | removeM
  deriving DecidableEq, Repr

/-- Modelled from the spec: `values.is_special(v)` returns true iff `v` is
one of `UNDEFINED` / `UNCHANGED` / the remove marker (spec section 4.1);
the explicit-null singleton `NONE` is not special. -/
def isSpecialS : Sentinel → Bool
  | .nonev => false
  | _ => true

/-- Modelled from the spec: the textual rendering (`str`) of each sentinel
singleton; distinct from every ordinary value and used only for display. -/
def sentinelStr : Sentinel → String
  | .undef => "UNDEFINED"
  | .unchanged => "UNCHANGED"
  | .nonev => "NONE"
  | .removeM => "REMOVE"

/-! ## Decoded CLI values -/

/-- Values produced by the CLI string decoders: the Python `None` object,
the three-plus-one sentinel singletons, strings, and JSON-like literals
(numbers, booleans, and opaquely carried collections). -/
inductive PV where
  | pynone
  | undefS
  | unchangedS
  | noneS
  | removeS
  | pstr (s : String)
  | pint (n : Int)
  | pbool (b : Bool)
  | pjson (raw : String)
  deriving DecidableEq, Repr

/-- Python truthiness of a decoded value (collections are carried opaquely
and treated as truthy, which is irrelevant to every use below). -/
def truthyPV : PV → Bool
  | .pynone => false
  | .pstr s => s ≠ ""
  | .pint n => n ≠ 0
  | .pbool b => b
  | _ => true

/-- Textual rendering (`str`) of a decoded value, used in error messages. -/
def pvDisplay : PV → String
  | .pynone => "None"
  | .undefS => "UNDEFINED"
  | .unchangedS => "UNCHANGED"
  | .noneS => "NONE"
  | .removeS => "REMOVE"
  | .pstr s => s
  | .pint n => toString n
  | .pbool b => if b then "True" else "False"
  | .pjson raw => raw

/-- String is all decimal digits and nonempty. -/
def allDigits (s : String) : Bool :=
  !s.isEmpty && s.data.all Char.isDigit

/-- Numeric value of an all-digit string. -/
def digitsVal (s : String) : Nat :=
  s.data.foldl (fun a c => a * 10 + (c.toNat - 48)) 0

/-- Modelled from the spec: `values.value_from_str` recognizes literal tokens
for `None` and the declared special values and returns the corresponding
singleton; all other strings are parsed as JSON-like literals (numbers,
booleans, quoted strings, collections carried opaquely) falling back to the
raw string, never raising (spec section 4.1). -/
def values_value_from_str (s : String) : PV :=
  if s = "None" then .noneS
  else if s = "UNCHANGED" then .unchangedS
  else if s = "UNDEFINED" then .undefS
  else if s = "REMOVE" then .removeS
  else if s = "true" then .pbool true
  else if s = "false" then .pbool false
  else if allDigits s then .pint (digitsVal s)
  else if s.startsWith "\"" && s.endsWith "\"" && 2 ≤ s.length then
    .pstr ((s.drop 1).dropRight 1)
  else if s.startsWith "[" || s.startsWith "\x7b" then .pjson s
  else .pstr s

/-- Modelled from the spec: the JSON deserialization collaborator
(`serialize.loads`); decodes JSON scalars, carries collections opaquely and
fails on anything else. -/
def loadsJ (s : String) : Except String PV :=
  if s = "null" then .ok .pynone
  else if s = "true" then .ok (.pbool true)
  else if s = "false" then .ok (.pbool false)
  else if allDigits s then .ok (.pint (digitsVal s))
  else if s.startsWith "\"" && s.endsWith "\"" && 2 ≤ s.length then
    .ok (.pstr ((s.drop 1).dropRight 1))
  else if s.startsWith "[" || s.startsWith "\x7b" then .ok (.pjson s)
  else .error "json decode error"

/-- Declared semantic type of a field (the `v_type` argument of the
decoders: the `List` type object, the literal tag "json", or others). -/
inductive TyTag where
  | tyBool
  | tyStr
  | tyList
  | tyJson
  | tyOther (n : String)
  deriving DecidableEq, Repr

/-- Python type name (`__name__`) of a declared semantic type. -/
def tyName : TyTag → String
  | .tyBool => "bool"
  | .tyStr => "str"
  | .tyList => "List"
  | .tyJson => "json"
  | .tyOther n => n

/-- `AttrParserArgs.value_from_str`: decode via the sentinel-aware decoder,
map the `NONE` singleton to Python `None`, and for string results under a
`List`/"json" semantic type re-decode the raw string as JSON. -/
def attrValueFromStr (vt : Option TyTag) (s : String) : Except String PV :=
  let v := values_value_from_str s
  let v := if v = PV.noneS then PV.pynone else v
  match v with
  | .pstr _ =>
    if vt = some TyTag.tyList || vt = some TyTag.tyJson then loadsJ s
    else .ok v
  | _ => .ok v

/-- `InputAttrParserArgs.value_from_str`: the base decoding with Python
`None` replaced by the `UNCHANGED` sentinel. -/
def inputValueFromStr (vt : Option TyTag) (s : String) : Except String PV :=
  match attrValueFromStr vt s with
  | .ok v => .ok (if v = PV.pynone then PV.unchangedS else v)
  | .error e => .error e

/-! ## IPv4 validation (`Validation.check_ip4`) -/

/-- Modelled from the spec: one octet of the stdlib `ipaddress` dotted-quad
parser — at most three decimal digits (leading zeros tolerated, as the
spec's canonical-form re-comparison scenario requires) valued at most 255. -/
def parseOctet (s : String) : Option Nat :=
  if allDigits s && s.length ≤ 3 then
    let n := digitsVal s
    if n ≤ 255 then some n else none
  else none

/-- Split a character list on a separator character (the separator is not
kept; an empty input yields one empty chunk, matching `str.split`). -/
def splitOnChar (c : Char) : List Char → List (List Char)
  | [] => [[]]
  | x :: xs =>
    let r := splitOnChar c xs
    if x = c then [] :: r
    else
      match r with
      | h :: t => (x :: h) :: t
      | [] => [[x]]

/-- Modelled from the spec: stdlib `ipaddress.IPv4Address` parsing of a
dotted-quad string. -/
def parseIPv4 (s : String) : Option (Nat × Nat × Nat × Nat) :=
  match ((splitOnChar '.' s.data).map (fun l => parseOctet (String.mk l))) with
  | [some a, some b, some c, some d] => some (a, b, c, d)
  | _ => none

/-- Canonical dotted-quad rendering of a parsed IPv4 address. -/
def ipCanon : Nat × Nat × Nat × Nat → String
  | (a, b, c, d) =>
    toString a ++ "." ++ toString b ++ "." ++ toString c ++ "." ++ toString d

/-- Modelled from the spec: `ipaddress.IPv4Address` applied to a decoded
value — dotted-quad parsing for strings, integer addresses for ints and
bools, failure for everything else. -/
def ipValue : PV → Option (Nat × Nat × Nat × Nat)
  | .pstr s => parseIPv4 s
  | .pint n =>
    if 0 ≤ n ∧ n < 4294967296 then
      let m := n.toNat
      some (m / 16777216, m / 65536 % 256, m / 256 % 256, m % 256)
    else none
  | .pbool b => some (0, 0, 0, if b then 1 else 0)
  | _ => none

/-- `Validation.check_ip4`: skip falsy values, the `UNCHANGED` sentinel and
the literal strings "None" and double-quote-pair; otherwise parse as IPv4
and require the canonical rendering to equal the value, wrapping any
failure in a message naming the attribute and the offending value. -/
def check_ip4 (attrName : String) (value : PV) : Except String Unit :=
  if truthyPV value && value != PV.unchangedS && value != PV.pstr "None"
      && value != PV.pstr "\"\"" then
    match ipValue value with
    | none =>
      .error (attrName ++ ": invalid ip4 address " ++ pvDisplay value
        ++ " Error: does not appear to be an IPv4 address")
    | some ip =>
      if PV.pstr (ipCanon ip) != value then
        .error (attrName ++ ": invalid ip4 address " ++ pvDisplay value
          ++ " Error: IP is not in canonical form."
          ++ "Canonical form of IP can be " ++ ipCanon ip)
      else .ok ()
  else .ok ()

/-! ## Python dict semantics -/

/-- Python dict assignment `m[k] = v`: replace in place when the key is
present, append otherwise. -/
def pyInsert (m : List (String × α)) (k : String) (v : α) :
    List (String × α) :=
  if m.any (fun kv => kv.1 = k) then
    m.map (fun kv => if kv.1 = k then (k, v) else kv)
  else m ++ [(k, v)]

/-- Python dict literal built left to right (later duplicate keys win,
first-insertion order kept). -/
def pyDict (l : List (String × α)) : List (String × α) :=
  l.foldl (fun m kv => pyInsert m kv.1 kv.2) []

/-- Lookup in an association list modelling a Python dict. -/
def plookup (k : String) : List (String × α) → Option α
  | [] => none
  | kv :: rest => if kv.1 = k then some kv.2 else plookup k rest

/-- Key list of an association list. -/
def keysOf (m : List (String × α)) : List String :=
  m.map Prod.fst

/-! ## Field metadata and the attribute-to-argument translator -/

/-- Per-field argparse metadata dictionary (the `METADATA_ARGPARSER` entry):
every key optional, mirroring Python dict lookups with defaults. -/
structure ArgMeta where
  help : Option String
  action : Option String
  const : Option PV
  dest : Option String
  choices : Option (List String)
  metavar : Option String
  tyOverride : Option String
  nargs : Option String
  defaultM : Option PV
  deriving DecidableEq, Repr

/-- Argparse metadata as attached to a field: either an inline dictionary or
a string key path resolved against the external CLI specification. -/
inductive MetaSpec where
  | inline (m : ArgMeta)
  | ref (path : String)
  deriving DecidableEq, Repr

/-- One declared `attr` field: name, declared semantic type, default
(`none` models `attr.NOTHING`, i.e. a required field) and optional argparse
metadata. -/
structure AttrF where
  name : String
  ty : Option TyTag
  default : Option PV
  meta : Option MetaSpec
  deriving DecidableEq, Repr

/-- The `type` callable of a prepared argument: an explicit override from
the metadata, or the class's sentinel-aware default decoder partially
applied to the field's declared semantic type (base translator or the
input-schema variant). -/
inductive TypeSpec where
  | explicitT (tag : String)
  | defaultBase (vt : Option TyTag)
  | defaultInput (vt : Option TyTag)
  deriving DecidableEq, Repr

/-- The attribute record produced by `AttrParserArgs.__attrs_post_init__`. -/
structure ParserArg where
  name : String
  action : String
  metavar : Option String
  dest : Option String
  defaultV : Option PV
  const : Option PV
  choices : Option (List String)
  help : String
  tyF : TypeSpec
  nargs : Option String
  deriving DecidableEq, Repr

/-- The keyword dictionary `AttrParserArgs.kwargs` passed to
`parser.add_argument`: internal fields removed and, per action, the
excluded entries cleared. -/
structure KwargsR where
  action : String
  metavar : Option String
  dest : Option String
  defaultV : Option PV
  const : Option PV
  choices : Option (List String)
  help : String
  tyF : Option TypeSpec
  nargs : Option String
  deriving DecidableEq, Repr

/-- Python `name.lstrip` with underscores: drop every leading underscore. -/
def lstripU (s : String) : String :=
  String.mk (s.data.dropWhile (fun c => c = '_'))

/-- Python `name.replace` of underscores by dashes. -/
def dashed (s : String) : String :=
  String.mk (s.data.map (fun c => if c = '_' then '-' else c))

/-- Python `name.replace` of dashes by underscores. -/
def undashed (s : String) : String :=
  String.mk (s.data.map (fun c => if c = '-' then '_' else c))

/-- Python `name.upper`, stated on the character list. -/
def pyUpper (s : String) : String :=
  String.mk (s.data.map Char.toUpper)

/-- An empty argparse metadata dictionary. -/
def emptyMeta : ArgMeta :=
  ⟨none, none, none, none, none, none, none, none, none⟩

/-- Python `name.startswith` with a double underscore, stated on the
character list. -/
def startsDoubleU (s : String) : Bool :=
  match s.data with
  | c1 :: c2 :: _ => c1 = '_' && c2 = '_'
  | _ => false

/-- `AttrParserArgs.__attrs_post_init__` (and the identical code path of
`InputAttrParserArgs`, selected by `inputCls`): reject names with multiple
leading underscores, strip leading underscores, apply the parser prefix,
read the metadata entries, default the action (`store_true` for plain bool
fields), append choices to the help text, and for fields with a declared
default turn the name into a double-dash optional flag with default and
metavar filled in. -/
def attrParserArgs (inputCls : Bool) (pfx : Option String) (a : AttrF)
    (m : ArgMeta) : Except String ParserArg :=
  if startsDoubleU a.name then
    .error (a.name ++ ": multiple leading underscores are not expected")
  else
    let name1 := lstripU a.name
    let name2 := match pfx with
      | some p => p ++ name1
      | none => name1
    let choices := m.choices
    let action := match m.action with
      | some act => act
      | none => if a.ty = some TyTag.tyBool then "store_true" else "store"
    let tyF := match m.tyOverride with
      | some t => TypeSpec.explicitT t
      | none =>
        if inputCls then TypeSpec.defaultInput a.ty
        else TypeSpec.defaultBase a.ty
    let help := (m.help).getD ""
    let dest := m.dest
    let const := m.const
    let help := match choices with
      | some cs => help ++ " [choices: " ++ String.intercalate ", " cs ++ "]"
      | none => help
    let nargs := m.nargs
    match a.default with
    | some dflt =>
      let name3 := "--" ++ dashed name2
      let defaultV := (m.defaultM).getD dflt
      let metavar := match m.metavar with
        | some mv => some mv
        | none => match a.ty with
          | some t => some (tyName t)
          | none => none
      let metavar := metavar.map (fun mv => pyUpper mv)
      .ok ⟨name3, action, metavar, dest, some defaultV, const, choices,
        help, tyF, nargs⟩
    | none =>
      .ok ⟨name2, action, none, dest, none, const, choices, help, tyF,
        nargs⟩

/-- `AttrParserArgs.kwargs`: drop the internal fields and apply the
per-action exclusions (`store_true`/`store_false` drop metavar, type and
default; `store_const` drops type; `None`-valued choices, dest, const and
nargs are dropped, which the `Option` representation already captures). -/
def kwargsOf (p : ParserArg) : KwargsR :=
  let dropTMD := p.action = "store_true" || p.action = "store_false"
  let dropT := dropTMD || p.action = "store_const"
  ⟨p.action,
   if dropTMD then none else p.metavar,
   p.dest,
   if dropTMD then none else p.defaultV,
   p.const,
   p.choices,
   p.help,
   if dropT then none else some p.tyF,
   p.nargs⟩

/-- Python `not` applied to a field default (`attr.NOTHING` is a truthy
object, so its negation is `False`). -/
def pyNotDefault : Option PV → PV
  | none => .pbool false
  | some v => .pbool (!truthyPV v)

/-- The two metadata rewrites of the `store_bool` expansion: the enabling
copy keeps the field's name and default and forces `store_const` of `True`;
the disabling copy is named `no<name>`, negates the default and forces
`store_const` of `False`; both share the field name as `dest`. -/
def storeBoolCopies (a : AttrF) (m : ArgMeta) (h : String) :
    List (AttrF × ArgMeta) :=
  let m1 : ArgMeta :=
    { m with help := some ("enable " ++ h), action := some "store_const",
             const := some (.pbool true), dest := some a.name }
  let m2 : ArgMeta :=
    { m with help := some ("disable " ++ h), action := some "store_const",
             const := some (.pbool false), dest := some a.name }
  let a1 : AttrF := ⟨a.name, a.ty, a.default, some (.inline m1)⟩
  let a2 : AttrF :=
    ⟨"no" ++ a.name, a.ty, some (pyNotDefault a.default), some (.inline m2)⟩
  [(a1, m1), (a2, m2)]

/-- Resolution of a field's argparse metadata: an inline dictionary is used
as is, a string is resolved as a key path against the CLI specification,
failing on an absent path (`KeyPath.value` lookup). -/
def resolveMeta (cliSpec : String → Option ArgMeta) :
    MetaSpec → Except String ArgMeta
  | .inline m => .ok m
  | .ref p =>
    match cliSpec p with
    | some m => .ok m
    | none => .error ("KeyError: " ++ p)

/-- The prepared `name -> kwargs` entries contributed by one field of
`ParserFiller.prepare_args`: none without argparse metadata, the two
`store_const` copies for a `store_bool` action (whose help text is a
mandatory dict lookup), one entry otherwise. -/
def fieldEntries (inputCls : Bool) (pfx : Option String)
    (cliSpec : String → Option ArgMeta) (a : AttrF) :
    Except String (List (String × KwargsR)) :=
  match a.meta with
  | none => .ok []
  | some ms =>
    match resolveMeta cliSpec ms with
    | .error e => .error e
    | .ok m =>
      if m.action = some "store_bool" then
        match m.help with
        | none => .error "KeyError: help"
        | some h =>
          (storeBoolCopies a m h).mapM (fun am =>
            (attrParserArgs inputCls pfx am.1 am.2).map
              (fun pa => (pa.name, kwargsOf pa)))
      else
        (attrParserArgs inputCls pfx a m).map
          (fun pa => [(pa.name, kwargsOf pa)])

/-- `ParserFiller.prepare_args`: for every field carrying argparse metadata,
resolve string metadata against the CLI specification, expand `store_bool`
fields into their two `store_const` copies, translate each resulting field
and collect `name -> kwargs` into a dict in iteration order. -/
def prepare_args (inputCls : Bool) (pfx : Option String)
    (cliSpec : String → Option ArgMeta) (fields : List AttrF) :
    Except String (List (String × KwargsR)) :=
  fields.foldlM (fun res a =>
    (fieldEntries inputCls pfx cliSpec a).map
      (fun es => es.foldl (fun r e => pyInsert r e.1 e.2) res)) []

/-! ## Parsed-argument extraction (`ParserFiller.extract_args`,
`ParserFiller.from_args`) -/

/-- Remove a key from an association list (Python `dict.pop`). -/
def perase (k : String) (m : List (String × α)) : List (String × α) :=
  m.filter (fun kv => kv.1 ≠ k)

/-- `ParserFiller.extract_args`: walk the declared fields in order; every
metadata-carrying field whose prefixed, dash-translated name occurs in the
input mapping is routed to the positional list (no default) or the keyword
dict (with default) and optionally popped from the input; returns the
positional values in declaration order, the keyword mapping and the
remaining input. -/
def extract_args (fields : List AttrF) (pfx : String)
    (kwargs0 : List (String × PV)) (positional optional pop : Bool) :
    List PV × List (String × PV) × List (String × PV) :=
  let step := fun (st : List (String × PV) × List (String × PV) ×
      List (String × PV)) (a : AttrF) =>
    let (argsAcc, kwAcc, kw) := st
    if a.meta.isSome then
      let argName := undashed (pfx ++ a.name)
      match plookup argName kw with
      | some v =>
        let destArgs : Bool := positional && a.default.isNone
        let destKw : Bool := optional && a.default.isSome
        if destArgs then
          (pyInsert argsAcc a.name v, kwAcc, if pop then perase argName kw else kw)
        else if destKw then
          (argsAcc, pyInsert kwAcc a.name v, if pop then perase argName kw else kw)
        else (argsAcc, kwAcc, kw)
      | none => (argsAcc, kwAcc, kw)
    else (argsAcc, kwAcc, kw)
  let (argsAcc, kwAcc, kw) := fields.foldl step ([], [], kwargs0)
  (argsAcc.map Prod.snd, kwAcc, kw)

/-- A parsed-argument input of `ParserFiller.from_args`: a flat dict or an
`argparse.Namespace` (whose `vars` view is its mapping). -/
inductive ParsedInput where
  | pdict (m : List (String × PV))
  | pnamespace (m : List (String × PV))
  deriving DecidableEq, Repr

/-- The constructed schema instance, modelled as the positional argument
list and keyword argument mapping handed to the schema's constructor. -/
structure InstanceArgs where
  posArgs : List PV
  kwArgs : List (String × PV)
  deriving DecidableEq, Repr

/-- `ParserFiller.from_args`: the local `_parsed_args` is assigned only
under the `isinstance(parsed_args, argparse.Namespace)` test, then used
unconditionally, so a plain dict input raises an unbound-local error; for a
namespace input the extraction runs and the instance is returned together
with the (popped) remainder, or with the original input when `pop` is
false. -/
def from_args (fields : List AttrF) (pfx : String) (pa : ParsedInput)
    (pop : Bool) : Except String (InstanceArgs × List (String × PV)) :=
  let parsedArgsVar : Option (List (String × PV)) :=
    match pa with
    | .pnamespace m => some m
    | .pdict _ => none
  match parsedArgsVar with
  | none =>
    .error "UnboundLocalError: local variable _parsed_args referenced before assignment"
  | some m =>
    let (aVals, kw, rest) := extract_args fields pfx m true true pop
    let ret := if pop then rest else
      match pa with
      | .pnamespace m0 => m0
      | .pdict m0 => m0
    .ok (⟨aVals, kw⟩, ret)

/-! ## Key paths and the parameter registry (`ParamsList.from_args`) -/

/-- Modelled from the spec: a key path is an ordered sequence of segments;
its string form joins them with the separator (spec section 4.2). -/
def kpStr (p : List String) : String :=
  String.intercalate "/" p

/-- Modelled from the spec: parsing a dotted/slashed key path string back
into its segments. -/
def kpOfStr (s : String) : List String :=
  (splitOnChar '/' s.data).map String.mk

/-- Modelled from the spec: `KeyPath.parent`, all segments but the last. -/
def kpParent (p : List String) : List String :=
  p.dropLast

/-- Modelled from the spec: `KeyPath.leaf`, the last segment. -/
def kpLeaf (p : List String) : String :=
  p.getLastD ""

/-- Modelled from the spec: a `Param` descriptor — name key path, storage
key path and backing-file hint. -/
structure ParamM where
  name : List String
  keypath : List String
  fpath : Option String
  deriving DecidableEq, Repr

/-- Modelled from the spec: a `ParamDictItem` descriptor for a collection
resource — name, storage key path, backing-file hint, plus its key and
value field names. -/
structure ParamDictItemM where
  name : List String
  keypath : List String
  fpath : Option String
  keyField : String
  valueField : String
  deriving DecidableEq, Repr

/-- An entry of the parameter specification registry: a leaf parameter or a
dict-item collection descriptor. -/
inductive RegEntry where
  | leafP (p : ParamM)
  | dictItem (d : ParamDictItemM)
  deriving DecidableEq, Repr

/-- Whether a registry entry is a `ParamDictItem`. -/
def RegEntry.isDictItem : RegEntry → Bool
  | .dictItem _ => true
  | .leafP _ => false

/-- One iteration of the `ParamsList.from_args` loop: look the key path up
in the registry; on a miss, fall back to the parent path and synthesize a
member `Param` when the parent is a dict-item collection, otherwise raise
`UnknownParamError` naming the offending key path. -/
def resolveParam (reg : String → Option RegEntry) (s : String) :
    Except String ParamM :=
  let keyPath := kpOfStr s
  match reg (kpStr keyPath) with
  | some (.leafP p) => .ok p
  | some (.dictItem d) => .ok ⟨d.name, d.keypath, d.fpath⟩
  | none =>
    match reg (kpStr (kpParent keyPath)) with
    | some (.dictItem d) =>
      .ok ⟨keyPath, d.keypath ++ [kpLeaf keyPath], d.fpath⟩
    | _ => .error ("UnknownParamError: " ++ kpStr keyPath)

/-- `ParamsList.from_args`: resolve every requested key path in order,
propagating the first resolution error. -/
def paramsListFromArgs (reg : String → Option RegEntry)
    (args : List String) : Except String (List ParamM) :=
  args.mapM (resolveParam reg)

/-! ## Configuration constants of the upgrade layouts -/

/-- Modelled from the spec: the version-1 local layout's OS component
directory name (`config.OS_ISO_DIR`; the constant's module is not among
the sources). -/
def osIsoDir : String := "os"

/-- Modelled from the spec: the CORTX component directory name
(`config.CORTX_ISO_DIR`). -/
def cortxIsoDir : String := "cortx_iso"

/-- Modelled from the spec: the third-party component directory name
(`config.CORTX_3RD_PARTY_ISO_DIR`). -/
def cortx3rdPartyIsoDir : String := "3rd_party"

/-- Modelled from the spec: the python component directory name
(`config.CORTX_PYTHON_ISO_DIR`). -/
def cortxPythonIsoDir : String := "python_deps"

/-- Modelled from the spec: the upgrade ISO staging directory
(`config.PRVSNR_USER_FILES_SWUPGRADE_REPOS_DIR`). -/
def swupgradeReposDir : String := "srv/salt/swupgrade/repos"

/-- Modelled from the spec: the version-2 firmware component key
(`config.ISOKeywordsVer2.FW`); section 4.6 requires the version-2 key set
to be disjoint from the version-1 key set, so the version-2 constants are
modelled with values distinct from every version-1 component name. -/
def fwKeyVer2 : String := "fw"

/-- Modelled from the spec: the version-2 OS patches component key
(`config.ISOKeywordsVer2.OS`), distinct from the version-1 OS component
name per the section 4.6 disjointness invariant. -/
def osKeyVer2 : String := "os_patches"

/-- Modelled from the spec: the version-2 software subtree directory
(`config.ISOKeywordsVer2.SW`). -/
def swDirVer2 : String := "sw"

/-- Modelled from the spec: the version-2 external packages subtree
directory (`config.ISOKeywordsVer2.EXTERNAL`). -/
def externalDirVer2 : String := "external"

/-- Modelled from the spec: the version-2 rpm subtree directory
(`config.ISOKeywordsVer2.RPM`). -/
def rpmDirVer2 : String := "rpm"

/-- Modelled from the spec: the version-2 python component key
(`config.ISOKeywordsVer2.PYTHON`), distinct from the version-1 python
component name per the section 4.6 disjointness invariant. -/
def pythonKeyVer2 : String := "python"

/-- Modelled from the spec: the version-2 CORTX repository key
(`config.UpgradeReposVer2.CORTX.value`), distinct from the version-1 CORTX
component name per the section 4.6 disjointness invariant. -/
def cortxKeyVer2 : String := "cortx"

/-- Modelled from the spec: the version-2 EPEL repository key
(`config.UpgradeReposVer2.EPEL_7.value`). -/
def epel7KeyVer2 : String := "epel-7"

/-- Modelled from the spec: the version-2 commons repository key
(`config.UpgradeReposVer2.COMMONS.value`). -/
def commonsKeyVer2 : String := "commons"

/-- Modelled from the spec: the version-2 performance repository key
(`config.UpgradeReposVer2.PERFORMANCE.value`). -/
def performanceKeyVer2 : String := "performance"

/-- The declared upgrade ISO schema version (`config.ISOVersion`). -/
inductive ISOVer where
  | v1
  | v2
  deriving DecidableEq, Repr

/-- The `value` string of an ISO schema version. -/
def isoVerStr : ISOVer → String
  | .v1 => "1"
  | .v2 => "2"

/-! ## SWUpdateRepo: source normalization and classification -/

/-- The value handed to the `source` field before conversion: Python
`None`, a sentinel, a string, a `Path`, or some other object rendered by
`str`. -/
inductive SrcIn where
  | pynone
  | sent (s : Sentinel)
  | sstr (s : String)
  | spath (p : String)
  | other (rendered : String)
  deriving DecidableEq, Repr

/-- The stored `source` value after conversion: a sentinel, a string or a
`Path`. -/
inductive SrcVal where
  | sent (s : Sentinel)
  | sstr (s : String)
  | spath (p : String)
  deriving DecidableEq, Repr

/-- The `source` field converter: `None` becomes `UNCHANGED`; special
values and `Path` objects pass through; everything else is rendered by
`str`. -/
def sourceConverter : SrcIn → SrcVal
  | .pynone => .sent .unchanged
  | .sent s => if isSpecialS s then .sent s else .sstr (sentinelStr s)
  | .sstr s => .sstr s
  | .spath p => .spath p
  | .other r => .sstr r

/-- Whether a stored source value is special (`is_special(self.source)`). -/
def isSpecialSrc : SrcVal → Bool
  | .sent s => isSpecialS s
  | _ => false

/-- Whether a stored source value is a `Path` object. -/
def isPathSrc : SrcVal → Bool
  | .spath _ => true
  | _ => false

/-- Whether a string carries a URL scheme accepted by the validator
(`value.startswith` on the two schemes, stated on the character list). -/
def isHttp (s : String) : Bool :=
  "http://".data.isPrefixOf s.data || "https://".data.isPrefixOf s.data

/-- The `str` rendering of a stored source value. -/
def srcValStr : SrcVal → String
  | .sent s => sentinelStr s
  | .sstr s => s
  | .spath p => p

/-- A path string is absolute when it begins with the separator. -/
def isAbs (s : String) : Bool :=
  s.data.head? = some '/'

/-- The filesystem collaborator consulted by the source validator and by
`Path.resolve`: existence, file/directory tests and an absolute working
directory. -/
structure FileSystem where
  cwd : String
  fexists : String → Bool
  isFile : String → Bool
  isDir : String → Bool
  cwdAbs : isAbs cwd = true

/-- Modelled from the spec: `Path.resolve` makes a path absolute against
the working directory (symlink handling omitted as no claim touches it). -/
def FileSystem.resolve (fs : FileSystem) (p : String) : String :=
  if isAbs p then p else fs.cwd ++ "/" ++ p

/-- The `source` validator `SWUpdateRepo._check_source`: special values
pass; strings with an http(s) scheme pass; everything else must exist on
the filesystem as an `.iso` file or a directory. -/
def checkSource (fs : FileSystem) (v : SrcVal) : Except String Unit :=
  if isSpecialSrc v then .ok ()
  else if (match v with | .sstr s => isHttp s | _ => false) then .ok ()
  else
    let p := srcValStr v
    let reason : Option String :=
      if fs.fexists p then
        if fs.isFile p then
          if ".iso".data.isSuffixOf p.data then none
          else some "not an iso file"
        else if fs.isDir p then none
        else some "not a file or directory"
      else some "unexpected type of source"
    match reason with
    | none => .ok ()
    | some r =>
      .error ("SWUpdateRepoSourceError: " ++ srcValStr v ++ ": " ++ r)

/-- `SWUpdateRepo.__attrs_post_init__`: a non-URL string source becomes a
`Path`, and any `Path` source is resolved. -/
def postInitSource (fs : FileSystem) (v : SrcVal) : SrcVal :=
  let v1 := match v with
    | .sstr s => if isHttp s then SrcVal.sstr s else SrcVal.spath s
    | x => x
  match v1 with
  | .spath p => .spath (fs.resolve p)
  | x => x

/-- The constructed `SWUpdateRepo` state: the key field and the normalized
source. -/
structure SWUpdateRepoState where
  release : String
  source : SrcVal
  deriving DecidableEq, Repr

/-- `SWUpdateRepo` construction: run the `source` converter, the validator
and `__attrs_post_init__` in `attrs` order. -/
def mkSWUpdateRepo (fs : FileSystem) (release : String) (src : SrcIn) :
    Except String SWUpdateRepoState :=
  match checkSource fs (sourceConverter src) with
  | .ok _ => .ok ⟨release, postInitSource fs (sourceConverter src)⟩
  | .error e => .error e

/-- `SWUpdateRepo.is_special`. -/
def repoIsSpecial (st : SWUpdateRepoState) : Bool :=
  isSpecialSrc st.source

/-- `SWUpdateRepo.is_local`. -/
def repoIsLocal (st : SWUpdateRepoState) : Bool :=
  !repoIsSpecial st && isPathSrc st.source

/-- `SWUpdateRepo.is_remote`. -/
def repoIsRemote (st : SWUpdateRepoState) : Bool :=
  !(repoIsSpecial st || repoIsLocal st)

/-! ## SWUpgradeRepo: versioned pillar-value derivation -/

/-- One component sub-entry of an upgrade pillar value: its source
location, optional schema version tag, the is-a-repository flag and the
optional enabled flag (absent keys modelled by `none`). -/
structure RepoEntry where
  src : String
  version : Option String
  is_repo : Bool
  enabled : Option Bool
  deriving DecidableEq, Repr

/-- The `SWUpgradeRepo` instance state relevant to derivation: the key
field (source), release, declared ISO schema version, target build root
and the enabled flag. -/
structure UpgradeRepoState where
  release : String
  source : SrcVal
  sourceVersion : ISOVer
  targetBuild : String
  enabled : Bool
  deriving DecidableEq, Repr

/-- A file-scheme component source under the target build and release. -/
def fileSrc (st : UpgradeRepoState) (rel : List String) : String :=
  "file://" ++ st.targetBuild ++ "/" ++ st.release ++ "/"
    ++ String.intercalate "/" rel

/-- The top-level release marker entry shared by both local layouts. -/
def releaseMarker (st : UpgradeRepoState) : RepoEntry :=
  ⟨"salt://" ++ swupgradeReposDir ++ "/" ++ st.release ++ ".iso",
   some (isoVerStr st.sourceVersion), false, none⟩

/-- `SWUpgradeRepo._pillar_values_ver1` as the ordered entry list of its
dict literal: the release marker plus the OS, CORTX, third-party and
python components; the OS repository's enabled flag is hardcoded `False`
(the commented-out `self.enabled` carries a FIXME about missing repodata),
the python and release entries are not repositories. -/
def ver1Entries (st : UpgradeRepoState) : List (String × Option RepoEntry) :=
  [(st.release, some (releaseMarker st)),
   (osIsoDir, some ⟨fileSrc st [osIsoDir], none, true, some false⟩),
   (cortxIsoDir, some ⟨fileSrc st [cortxIsoDir], none, true, some st.enabled⟩),
   (cortx3rdPartyIsoDir,
    some ⟨fileSrc st [cortx3rdPartyIsoDir], none, true, some st.enabled⟩),
   (cortxPythonIsoDir,
    some ⟨fileSrc st [cortxPythonIsoDir], none, false, none⟩)]

/-- `SWUpgradeRepo._pillar_values_ver2` as the ordered entry list of its
dict literal: the release marker, firmware and OS patches (not
repositories, enabled per the instance), the CORTX repository under the
software subtree, the python packages one level deeper under the external
subtree, and the three rpm sub-repositories (EPEL, commons, performance)
carrying no enabled flag. -/
def ver2Entries (st : UpgradeRepoState) : List (String × Option RepoEntry) :=
  [(st.release, some (releaseMarker st)),
   (fwKeyVer2, some ⟨fileSrc st [fwKeyVer2], none, false, some st.enabled⟩),
   (osKeyVer2, some ⟨fileSrc st [osKeyVer2], none, false, some st.enabled⟩),
   (cortxKeyVer2,
    some ⟨fileSrc st [swDirVer2, cortxKeyVer2], none, true, some st.enabled⟩),
   (pythonKeyVer2,
    some ⟨fileSrc st [swDirVer2, externalDirVer2, pythonKeyVer2],
      none, false, none⟩),
   (epel7KeyVer2,
    some ⟨fileSrc st [swDirVer2, externalDirVer2, rpmDirVer2, epel7KeyVer2],
      none, true, none⟩),
   (commonsKeyVer2,
    some ⟨fileSrc st [swDirVer2, externalDirVer2, rpmDirVer2, commonsKeyVer2],
      none, true, none⟩),
   (performanceKeyVer2,
    some ⟨fileSrc st [swDirVer2, externalDirVer2, rpmDirVer2,
      performanceKeyVer2], none, true, none⟩)]

/-- The remote-source entry list of `SWUpgradeRepo.pillar_value`: one
entry per known component pointing under the remote source, the three
repositories enabled per the instance. -/
def remoteEntries (st : UpgradeRepoState) : List (String × Option RepoEntry) :=
  [(osIsoDir,
    some ⟨srcValStr st.source ++ "/" ++ osIsoDir, none, true,
      some st.enabled⟩),
   (cortxIsoDir,
    some ⟨srcValStr st.source ++ "/" ++ cortxIsoDir, none, true,
      some st.enabled⟩),
   (cortx3rdPartyIsoDir,
    some ⟨srcValStr st.source ++ "/" ++ cortx3rdPartyIsoDir, none, true,
      some st.enabled⟩),
   (cortxPythonIsoDir,
    some ⟨srcValStr st.source ++ "/" ++ cortxPythonIsoDir, none, false,
      none⟩)]

/-- The known component sub-entry keys of the upgrade repo resource, as
nulled out by the removal branches. -/
def knownComponentKeys : List String :=
  [osIsoDir, cortxIsoDir, cortx3rdPartyIsoDir, cortxPythonIsoDir]

/-- The special/removal branch of `SWUpgradeRepo.pillar_value`: a dict
comprehension nulling the known component keys, then the assignment
`res[self.release] = None`. -/
def specialPillarValue (release : String) : List (String × Option RepoEntry) :=
  pyInsert (pyDict (knownComponentKeys.map (fun k => (k, none)))) release none

/-- `SWUpgradeRepo.pillar_value`: the removal map for a special source, the
remote layout for a URL source, and otherwise the version-selected local
layout. -/
def pillarValue (st : UpgradeRepoState) : List (String × Option RepoEntry) :=
  if isSpecialSrc st.source then specialPillarValue st.release
  else if !(isSpecialSrc st.source || isPathSrc st.source) then
    pyDict (remoteEntries st)
  else if st.sourceVersion = ISOVer.v1 then pyDict (ver1Entries st)
  else pyDict (ver2Entries st)

/-- `SWUpgradeRemoveRepo.pillar_value`: a dict comprehension nulling the
known component keys and the release key. -/
def removeRepoPillarValue (release : String) :
    List (String × Option RepoEntry) :=
  pyDict ((knownComponentKeys ++ [release]).map (fun k => (k, none)))

/-! ## Concrete scenario instances -/

/-- The versioned-derivation scenario instance: a local (path) source,
release 2.0.0-1, target build /builds, enabled, schema version 1. -/
def scenarioStV1 : UpgradeRepoState :=
  ⟨"2.0.0-1", .spath "/var/2.0.0-1.iso", .v1, "/builds", true⟩

/-- The same scenario instance with schema version 2. -/
def scenarioStV2 : UpgradeRepoState :=
  ⟨"2.0.0-1", .spath "/var/2.0.0-1.iso", .v2, "/builds", true⟩

/-- A remote-source upgrade repo instance with the enabled flag set. -/
def remoteScenarioSt : UpgradeRepoState :=
  ⟨"2.0.0-1", .sstr "http://host/build", .v1, "/builds", true⟩

/-- A special-source (removal) upgrade repo instance. -/
def specialScenarioSt : UpgradeRepoState :=
  ⟨"1.2.3-4", .sent .undef, .v1, "/builds", false⟩

/-- A `store_bool` metadata dictionary with only help and action set. -/
def storeBoolMeta : ArgMeta :=
  ⟨some "verbosity", some "store_bool", none, none, none, none, none, none,
   none⟩

/-- A boolean field named x with default `False` declared `store_bool`. -/
def boolFieldX : AttrF :=
  ⟨"x", some .tyBool, some (.pbool false), some (.inline storeBoolMeta)⟩

/-- A required (no default) schema field named f1. -/
def c8FieldReq : AttrF := ⟨"f1", some .tyStr, none, some (.inline emptyMeta)⟩

/-- An optional (defaulted) schema field named f2. -/
def c8FieldOpt : AttrF :=
  ⟨"f2", some .tyStr, some .pynone, some (.inline emptyMeta)⟩

/-- A parsed-argument mapping supplying f1, f2 and one leftover key. -/
def c8Input : List (String × PV) :=
  [("f1", .pstr "a"), ("f2", .pstr "b"), ("zz", .pint 1)]

/-- A dict-item registry descriptor for the upgrade repo collection. -/
def c9DictItem : ParamDictItemM :=
  ⟨["swupgrade", "repo"], ["eos", "swupgrade", "repos"], some "release.sls",
   "release", "source"⟩

/-- A parameter registry holding only the upgrade repo collection. -/
def c9Reg : String → Option RegEntry := fun s =>
  if s = "swupgrade/repo" then some (.dictItem c9DictItem) else none

/-- A filesystem on which nothing exists, with an absolute working
directory. -/
def emptyFS : FileSystem :=
  ⟨"/home", fun _ => false, fun _ => false, fun _ => false, rfl⟩

/-! ## Helper lemmas about the Python dict model -/

theorem mem_pyInsert {m : List (String × α)} {k : String} {v : α}
    {kv : String × α} (h : kv ∈ pyInsert m k v) : kv ∈ m ∨ kv = (k, v) := by
  unfold pyInsert at h
  split at h
  · rcases List.mem_map.1 h with ⟨kv', hmem, heq⟩
    by_cases hk : kv'.1 = k
    · right
      simp [hk] at heq
      exact heq.symm
    · left
      simp [hk] at heq
      exact heq ▸ hmem
  · rcases List.mem_append.1 h with hl | hr
    · exact Or.inl hl
    · exact Or.inr (List.mem_singleton.1 hr)

theorem mem_pyDict_aux {kv : String × α} :
    ∀ (l acc : List (String × α)),
      kv ∈ l.foldl (fun m p => pyInsert m p.1 p.2) acc →
        kv ∈ acc ∨ kv ∈ l := by
  intro l
  induction l with
  | nil => intro acc h; exact Or.inl h
  | cons p rest ih =>
    intro acc h
    rcases ih (pyInsert acc p.1 p.2) h with hacc | hrest
    · rcases mem_pyInsert hacc with hm | he
      · exact Or.inl hm
      · right
        simp [he]
    · right
      exact List.mem_cons_of_mem _ hrest

theorem mem_pyDict {l : List (String × α)} {kv : String × α}
    (h : kv ∈ pyDict l) : kv ∈ l := by
  rcases mem_pyDict_aux l [] h with hacc | hl
  · cases hacc
  · exact hl

theorem plookup_map_replace (m : List (String × α)) (k : String) (v : α) :
    plookup k (m.map (fun kv => if kv.1 = k then (k, v) else kv)) =
      if m.any (fun kv => kv.1 = k) then some v else none := by
  induction m with
  | nil => simp [plookup]
  | cons kv rest ih =>
    by_cases hk : kv.1 = k
    · simp [plookup, hk]
    · rw [List.map_cons, List.any_cons]
      show plookup k ((if kv.1 = k then (k, v) else kv) :: _) = _
      rw [if_neg hk]
      show (if kv.1 = k then some kv.2 else _) = _
      rw [if_neg hk, decide_eq_false hk, Bool.false_or]
      exact ih

theorem plookup_map_replace_ne {k' k : String} (hne : k' ≠ k)
    (m : List (String × α)) (v : α) :
    plookup k' (m.map (fun kv => if kv.1 = k then (k, v) else kv)) =
      plookup k' m := by
  induction m with
  | nil => simp [plookup]
  | cons kv rest ih =>
    rw [List.map_cons]
    by_cases hk : kv.1 = k
    · have h1 : ¬(k = k') := fun h => hne h.symm
      have h2 : ¬(kv.1 = k') := fun h => hne (Eq.trans h.symm hk)
      rw [if_pos hk]
      show (if k = k' then some v else _) = plookup k' (kv :: rest)
      rw [if_neg h1]
      show _ = (if kv.1 = k' then some kv.2 else _)
      rw [if_neg h2]
      exact ih
    · rw [if_neg hk]
      by_cases hk' : kv.1 = k'
      · show (if kv.1 = k' then some kv.2 else _) =
          (if kv.1 = k' then some kv.2 else _)
        rw [if_pos hk', if_pos hk']
      · show (if kv.1 = k' then some kv.2 else _) =
          (if kv.1 = k' then some kv.2 else _)
        rw [if_neg hk', if_neg hk']
        exact ih

theorem plookup_append_single (m : List (String × α)) (k : String) (v : α)
    (hany : m.any (fun kv => kv.1 = k) = false) :
    plookup k (m ++ [(k, v)]) = some v := by
  induction m with
  | nil => simp [plookup]
  | cons kv rest ih =>
    rw [List.any_cons, Bool.or_eq_false_iff] at hany
    have hk : ¬kv.1 = k := by
      have := hany.1
      simpa using this
    rw [List.cons_append]
    show (if kv.1 = k then some kv.2 else _) = _
    rw [if_neg hk]
    exact ih hany.2

theorem plookup_append_single_ne {k' k : String} (hne : k' ≠ k)
    (m : List (String × α)) (v : α) :
    plookup k' (m ++ [(k, v)]) = plookup k' m := by
  induction m with
  | nil =>
    show (if k = k' then some v else plookup k' []) = _
    rw [if_neg (fun h => hne h.symm)]
  | cons kv rest ih =>
    rw [List.cons_append]
    by_cases hk' : kv.1 = k'
    · show (if kv.1 = k' then some kv.2 else _) =
        (if kv.1 = k' then some kv.2 else _)
      rw [if_pos hk', if_pos hk']
    · show (if kv.1 = k' then some kv.2 else _) =
        (if kv.1 = k' then some kv.2 else _)
      rw [if_neg hk', if_neg hk']
      exact ih

theorem plookup_pyInsert_self (m : List (String × α)) (k : String) (v : α) :
    plookup k (pyInsert m k v) = some v := by
  unfold pyInsert
  split
  · rename_i hany
    rw [plookup_map_replace, if_pos hany]
  · rename_i hany
    exact plookup_append_single m k v (Bool.eq_false_iff.mpr hany)

theorem plookup_pyInsert_ne {k' k : String} (hne : k' ≠ k)
    (m : List (String × α)) (v : α) :
    plookup k' (pyInsert m k v) = plookup k' m := by
  unfold pyInsert
  split
  · exact plookup_map_replace_ne hne m v
  · exact plookup_append_single_ne hne m v

theorem pyDict_append_single (l : List (String × α)) (x : String × α) :
    pyDict (l ++ [x]) = pyInsert (pyDict l) x.1 x.2 := by
  unfold pyDict
  rw [List.foldl_append]
  rfl

/-! ## Helper lemmas about path resolution and name mangling -/

theorem isAbs_resolve (fs : FileSystem) (p : String) :
    isAbs (fs.resolve p) = true := by
  unfold FileSystem.resolve
  split
  · assumption
  · have hcwd := fs.cwdAbs
    unfold isAbs at hcwd ⊢
    cases hd : fs.cwd.data with
    | nil => rw [hd] at hcwd; cases hcwd
    | cons c t =>
      rw [hd] at hcwd
      have hc : c = '/' := by
        simpa using hcwd
      rw [String.data_append, String.data_append, hd, hc]
      rfl

theorem dashed_length (s : String) : (dashed s).length = s.length := by
  unfold dashed
  show (s.data.map _).length = _
  rw [List.length_map]
  rfl

theorem lstripU_length_le (s : String) : (lstripU s).length ≤ s.length := by
  unfold lstripU
  show (s.data.dropWhile _).length ≤ _
  exact (List.dropWhile_suffix _).sublist.length_le

theorem removeRepo_eq_special (rel : String) :
    removeRepoPillarValue rel = specialPillarValue rel := by
  unfold removeRepoPillarValue specialPillarValue
  rw [List.map_append]
  exact pyDict_append_single _ _

theorem startsDoubleU_no_append (x : String) :
    startsDoubleU ("no" ++ x) = false := by
  have hd : ("no" ++ x).data = 'n' :: 'o' :: x.data := by
    rw [String.data_append]
    rfl
  unfold startsDoubleU
  rw [hd]
  simp

theorem lstripU_no_append_length (x : String) :
    (lstripU ("no" ++ x)).length = 2 + x.length := by
  unfold lstripU
  show (("no" ++ x).data.dropWhile _).length = _
  have hd : ("no" ++ x).data = 'n' :: 'o' :: x.data := by
    rw [String.data_append]
    rfl
  rw [hd, List.dropWhile_cons]
  simp only [decide_eq_true_eq]
  rw [if_neg (by decide : ¬('n' = '_'))]
  show ('n' :: 'o' :: x.data).length = 2 + x.length
  simp only [List.length_cons]
  have hx : x.length = x.data.length := rfl
  omega

theorem flagOn_ne_flagOff (x : String) :
    ("--" ++ dashed (lstripU x)) ≠ ("--" ++ dashed (lstripU ("no" ++ x))) := by
  intro heq
  have hlen := congrArg String.length heq
  rw [String.length_append, String.length_append, dashed_length,
    dashed_length, lstripU_no_append_length] at hlen
  have h1 : (lstripU x).length ≤ x.length := lstripU_length_le x
  omega

theorem postInit_string_classify (fs : FileSystem) (u : String) :
    (∃ s, postInitSource fs (SrcVal.sstr u) = SrcVal.sstr s
      ∧ isHttp s = true)
    ∨ (∃ p, postInitSource fs (SrcVal.sstr u) = SrcVal.spath p
      ∧ isAbs p = true) := by
  by_cases hh : isHttp u = true
  · left
    refine ⟨u, ?_, hh⟩
    simp [postInitSource, hh]
  · right
    refine ⟨fs.resolve u, ?_, isAbs_resolve fs u⟩
    simp [postInitSource, hh]

theorem postInit_classify (fs : FileSystem) (src : SrcIn) :
    isSpecialSrc (postInitSource fs (sourceConverter src)) = true
    ∨ (∃ s, postInitSource fs (sourceConverter src) = SrcVal.sstr s
        ∧ isHttp s = true)
    ∨ (∃ p, postInitSource fs (sourceConverter src) = SrcVal.spath p
        ∧ isAbs p = true) := by
  cases src with
  | pynone => exact Or.inl rfl
  | sent s =>
    cases s with
    | nonev =>
      rcases postInit_string_classify fs "NONE" with h | h
      · exact Or.inr (Or.inl h)
      · exact Or.inr (Or.inr h)
    | undef => exact Or.inl rfl
    | unchanged => exact Or.inl rfl
    | removeM => exact Or.inl rfl
  | sstr u =>
    rcases postInit_string_classify fs u with h | h
    · exact Or.inr (Or.inl h)
    · exact Or.inr (Or.inr h)
  | spath p =>
    exact Or.inr (Or.inr ⟨fs.resolve p, rfl, isAbs_resolve fs p⟩)
  | other r =>
    rcases postInit_string_classify fs r with h | h
    · exact Or.inr (Or.inl h)
    · exact Or.inr (Or.inr h)

/-! ## Claim theorems -/

/-- C1: for the local dict-item scenario (release 2.0.0-1, target build
/builds, enabled) the VERSION1 pillar value has exactly 5 entries — the
release marker plus the OS, CORTX, third-party and python component keys —
whose component entries carry file-scheme sources rooted at
/builds/2.0.0-1/; the VERSION2 pillar value has strictly more entries and
its key set shares only the release marker with the VERSION1 key set. -/
theorem swupgrade_versioned_derivation_scenario :
    (pillarValue scenarioStV1).length = 5
    ∧ keysOf (pillarValue scenarioStV1) =
        ["2.0.0-1", osIsoDir, cortxIsoDir, cortx3rdPartyIsoDir,
         cortxPythonIsoDir]
    ∧ plookup osIsoDir (pillarValue scenarioStV1) =
        some (some ⟨"file:///builds/2.0.0-1/" ++ osIsoDir, none, true,
          some false⟩)
    ∧ plookup cortxIsoDir (pillarValue scenarioStV1) =
        some (some ⟨"file:///builds/2.0.0-1/" ++ cortxIsoDir, none, true,
          some true⟩)
    ∧ plookup cortx3rdPartyIsoDir (pillarValue scenarioStV1) =
        some (some ⟨"file:///builds/2.0.0-1/" ++ cortx3rdPartyIsoDir, none,
          true, some true⟩)
    ∧ plookup cortxPythonIsoDir (pillarValue scenarioStV1) =
        some (some ⟨"file:///builds/2.0.0-1/" ++ cortxPythonIsoDir, none,
          false, none⟩)
    ∧ (pillarValue scenarioStV1).length < (pillarValue scenarioStV2).length
    ∧ (keysOf (pillarValue scenarioStV2)).filter
        (fun k => decide (k ∈ keysOf (pillarValue scenarioStV1))) =
        ["2.0.0-1"] := by
  decide

/-- C2, counterexample: in the version-1 local derivation of the scenario
instance (enabled true), the OS component entry carries is-repo true but
enabled `False`, unequal to the instance's enabled state — the enabled
flag is not applied uniformly to all is-a-repository components of that
call. -/
theorem enabled_uniformity_cex :
    plookup osIsoDir (pillarValue scenarioStV1) =
      some (some ⟨"file:///builds/2.0.0-1/os", none, true, some false⟩)
    ∧ scenarioStV1.enabled = true
    ∧ (some false : Option Bool) ≠ some scenarioStV1.enabled := by
  refine ⟨by decide, rfl, by decide⟩

/-- C2, amended: the enabled flag applies uniformly to every is-repo
component of a remote derivation; in the version-1 local derivation it
applies to every is-repo component except the OS entry (whose enabled flag
is hardcoded false); in the version-2 local derivation the CORTX
repository carries the instance's enabled state while the three external
rpm sub-repositories carry no enabled flag at all. -/
theorem enabled_uniformity_amended :
    (∀ st : UpgradeRepoState, isSpecialSrc st.source = false →
      isPathSrc st.source = false →
      ∀ k e, (k, some e) ∈ pillarValue st → e.is_repo = true →
        e.enabled = some st.enabled)
    ∧ (∀ st : UpgradeRepoState, isSpecialSrc st.source = false →
      isPathSrc st.source = true → st.sourceVersion = ISOVer.v1 →
      ∀ k e, (k, some e) ∈ pillarValue st → e.is_repo = true →
        k ≠ osIsoDir → e.enabled = some st.enabled)
    ∧ (∀ st : UpgradeRepoState, isSpecialSrc st.source = false →
      isPathSrc st.source = true → st.sourceVersion = ISOVer.v2 →
      ∀ k e, (k, some e) ∈ pillarValue st → e.is_repo = true →
        ((k = cortxKeyVer2 ∧ e.enabled = some st.enabled)
          ∨ (k ∈ [epel7KeyVer2, commonsKeyVer2, performanceKeyVer2]
              ∧ e.enabled = none))) := by
  refine ⟨fun st h1 h2 k e hmem hrepo => ?_,
    fun st h1 h2 h3 k e hmem hrepo hkos => ?_,
    fun st h1 h2 h3 k e hmem hrepo => ?_⟩
  · have hpv : pillarValue st = pyDict (remoteEntries st) := by
      simp [pillarValue, h1, h2]
    rw [hpv] at hmem
    have hm := mem_pyDict hmem
    simp only [remoteEntries, List.mem_cons, List.not_mem_nil, or_false,
      Prod.mk.injEq, Option.some.injEq] at hm
    rcases hm with ⟨hk, he⟩ | ⟨hk, he⟩ | ⟨hk, he⟩ | ⟨hk, he⟩ <;>
      subst he <;> first
        | rfl
        | exact Bool.noConfusion hrepo
  · have hpv : pillarValue st = pyDict (ver1Entries st) := by
      simp [pillarValue, h1, h2, h3]
    rw [hpv] at hmem
    have hm := mem_pyDict hmem
    simp only [ver1Entries, List.mem_cons, List.not_mem_nil, or_false,
      Prod.mk.injEq, Option.some.injEq] at hm
    rcases hm with ⟨hk, he⟩ | ⟨hk, he⟩ | ⟨hk, he⟩ | ⟨hk, he⟩ | ⟨hk, he⟩
    · subst he
      exact Bool.noConfusion hrepo
    · exact absurd hk hkos
    · subst he; rfl
    · subst he; rfl
    · subst he
      exact Bool.noConfusion hrepo
  · have hpv : pillarValue st = pyDict (ver2Entries st) := by
      simp [pillarValue, h1, h2, h3]
    rw [hpv] at hmem
    have hm := mem_pyDict hmem
    simp only [ver2Entries, List.mem_cons, List.not_mem_nil, or_false,
      Prod.mk.injEq, Option.some.injEq] at hm
    rcases hm with ⟨hk, he⟩ | ⟨hk, he⟩ | ⟨hk, he⟩ | ⟨hk, he⟩ | ⟨hk, he⟩
      | ⟨hk, he⟩ | ⟨hk, he⟩ | ⟨hk, he⟩
    · subst he
      exact Bool.noConfusion hrepo
    · subst he
      exact Bool.noConfusion hrepo
    · subst he
      exact Bool.noConfusion hrepo
    · subst he
      exact Or.inl ⟨hk, rfl⟩
    · subst he
      exact Bool.noConfusion hrepo
    · subst he
      exact Or.inr ⟨by simp [hk], rfl⟩
    · subst he
      exact Or.inr ⟨by simp [hk], rfl⟩
    · subst he
      exact Or.inr ⟨by simp [hk], rfl⟩

/-- C2, witness for the amended theorem: the remote CORTX entry of the
remote scenario and the local entries of the two versioned scenarios. -/
theorem enabled_uniformity_amended_w :
    (⟨"http://host/build/cortx_iso", none, true, some true⟩ : RepoEntry).enabled
        = some remoteScenarioSt.enabled
    ∧ (⟨"file:///builds/2.0.0-1/cortx_iso", none, true, some true⟩
        : RepoEntry).enabled = some scenarioStV1.enabled
    ∧ ((cortxKeyVer2 = cortxKeyVer2
          ∧ (⟨"file:///builds/2.0.0-1/sw/cortx", none, true, some true⟩
              : RepoEntry).enabled = some scenarioStV2.enabled)
        ∨ (cortxKeyVer2 ∈ [epel7KeyVer2, commonsKeyVer2, performanceKeyVer2]
          ∧ (⟨"file:///builds/2.0.0-1/sw/cortx", none, true, some true⟩
              : RepoEntry).enabled = none)) :=
  ⟨enabled_uniformity_amended.1 remoteScenarioSt rfl rfl cortxIsoDir
      ⟨"http://host/build/cortx_iso", none, true, some true⟩ (by decide) rfl,
   enabled_uniformity_amended.2.1 scenarioStV1 rfl rfl rfl cortxIsoDir
      ⟨"file:///builds/2.0.0-1/cortx_iso", none, true, some true⟩ (by decide)
      rfl (by decide),
   enabled_uniformity_amended.2.2 scenarioStV2 rfl rfl rfl cortxKeyVer2
      ⟨"file:///builds/2.0.0-1/sw/cortx", none, true, some true⟩ (by decide)
      rfl⟩

/-- C3: for every special-source upgrade repo instance, and for every
remove-repo instance, the pillar value maps each of the known component
keys and the release key to None, and contains nothing else. -/
theorem special_removal_nulls_known_keys :
    (∀ st : UpgradeRepoState, isSpecialSrc st.source = true →
      (∀ kv ∈ pillarValue st,
        kv.1 ∈ knownComponentKeys ++ [st.release] ∧ kv.2 = none)
      ∧ (∀ k ∈ knownComponentKeys, plookup k (pillarValue st) = some none)
      ∧ plookup st.release (pillarValue st) = some none)
    ∧ (∀ rel : String,
      (∀ kv ∈ removeRepoPillarValue rel,
        kv.1 ∈ knownComponentKeys ++ [rel] ∧ kv.2 = none)
      ∧ (∀ k ∈ knownComponentKeys,
          plookup k (removeRepoPillarValue rel) = some none)
      ∧ plookup rel (removeRepoPillarValue rel) = some none) := by
  have base :
      ∀ rel : String,
        (∀ kv ∈ specialPillarValue rel,
          kv.1 ∈ knownComponentKeys ++ [rel] ∧ kv.2 = none)
        ∧ (∀ k ∈ knownComponentKeys,
            plookup k (specialPillarValue rel) = some none)
        ∧ plookup rel (specialPillarValue rel) = some none := by
    intro rel
    have hspv : specialPillarValue rel =
        pyInsert [(osIsoDir, none), (cortxIsoDir, none),
          (cortx3rdPartyIsoDir, none), (cortxPythonIsoDir, none)] rel none :=
      rfl
    refine ⟨fun kv hkv => ?_, fun k hk => ?_, ?_⟩
    · rw [hspv] at hkv
      rcases mem_pyInsert hkv with hm | he
      · simp only [List.mem_cons, List.not_mem_nil, or_false] at hm
        rcases hm with h | h | h | h <;> subst h <;>
          exact ⟨by simp [knownComponentKeys], rfl⟩
      · subst he
        exact ⟨by simp, rfl⟩
    · rw [hspv]
      by_cases hrel : k = rel
      · subst hrel
        exact plookup_pyInsert_self _ _ _
      · rw [plookup_pyInsert_ne hrel]
        simp only [knownComponentKeys, List.mem_cons, List.not_mem_nil,
          or_false] at hk
        rcases hk with h | h | h | h <;> subst h <;> rfl
    · rw [hspv]
      exact plookup_pyInsert_self _ _ _
  constructor
  · intro st h
    have hpv : pillarValue st = specialPillarValue st.release := by
      simp [pillarValue, h]
    rw [hpv]
    exact base st.release
  · intro rel
    rw [removeRepo_eq_special]
    exact base rel

/-- C3, witness at the special-source scenario instance and a concrete
removal release. -/
theorem special_removal_nulls_known_keys_w :
    plookup osIsoDir (pillarValue specialScenarioSt) = some none
    ∧ plookup specialScenarioSt.release (pillarValue specialScenarioSt) =
        some none
    ∧ plookup cortxIsoDir (removeRepoPillarValue "1.2.3-4") = some none :=
  ⟨(special_removal_nulls_known_keys.1 specialScenarioSt rfl).2.1 osIsoDir
      (by decide),
   (special_removal_nulls_known_keys.1 specialScenarioSt rfl).2.2,
   (special_removal_nulls_known_keys.2 "1.2.3-4").2.1 cortxIsoDir
      (by decide)⟩

/-- C4, counterexample: the raw string None decodes to the `NONE` singleton
under the underlying decoder, yet under the translator's input-variant
decoder it comes out as the `UNCHANGED` sentinel — a decoded NONE does
collapse into UNCHANGED under one of the translator's decoders. -/
theorem none_decode_collapse_cex :
    values_value_from_str "None" = PV.noneS
    ∧ inputValueFromStr none "None" = .ok PV.unchangedS :=
  ⟨rfl, rfl⟩

/-- C4, amended: the underlying decoder yields the `NONE` singleton exactly
for the literal None token; the base translator decoder maps a decoded
NONE to Python `None` (never to `UNCHANGED`); the input-variant decoder
deliberately maps it to `UNCHANGED`. -/
theorem none_decode_token_amended :
    (∀ s, values_value_from_str s = PV.noneS ↔ s = "None")
    ∧ (∀ s vt, values_value_from_str s = PV.noneS →
        attrValueFromStr vt s = .ok PV.pynone)
    ∧ (∀ s vt, values_value_from_str s = PV.noneS →
        inputValueFromStr vt s = .ok PV.unchangedS) := by
  refine ⟨fun s => ⟨fun h => ?_, fun h => by rw [h]; rfl⟩,
    fun s vt h => ?_, fun s vt h => ?_⟩
  · by_cases h1 : s = "None"
    · exact h1
    · exfalso
      unfold values_value_from_str at h
      rw [if_neg h1] at h
      split_ifs at h
  · simp [attrValueFromStr, h]
  · simp [inputValueFromStr, attrValueFromStr, h]

/-- C4, witness for the amended theorem at the literal None token. -/
theorem none_decode_token_amended_w :
    attrValueFromStr none "None" = .ok PV.pynone
    ∧ inputValueFromStr (some .tyJson) "None" = .ok PV.unchangedS :=
  ⟨none_decode_token_amended.2.1 "None" none (by decide),
   none_decode_token_amended.2.2 "None" (some .tyJson) (by decide)⟩

/-- C5: whenever the base decoder yields Python `None`, the input-variant
decoder yields the `UNCHANGED` sentinel, and the input-variant decoder
never returns Python `None` at all. -/
theorem input_decoder_never_none :
    (∀ s vt, attrValueFromStr vt s = .ok PV.pynone →
        inputValueFromStr vt s = .ok PV.unchangedS)
    ∧ (∀ s vt v, inputValueFromStr vt s = .ok v → v ≠ PV.pynone) := by
  constructor
  · intro s vt h
    simp [inputValueFromStr, h]
  · intro s vt v h hv
    subst hv
    unfold inputValueFromStr at h
    cases ha : attrValueFromStr vt s with
    | error e => rw [ha] at h; cases h
    | ok v' =>
      rw [ha] at h
      injection h with h2
      by_cases hv' : v' = PV.pynone
      · rw [if_pos hv'] at h2
        exact PV.noConfusion h2
      · rw [if_neg hv'] at h2
        exact hv' h2

/-- C5, witness at the literal None token. -/
theorem input_decoder_never_none_w :
    inputValueFromStr none "None" = .ok PV.unchangedS :=
  input_decoder_never_none.1 "None" none (by rfl)

/-- C6, counterexample: for the boolean field named x (default `False`,
action `store_bool`) the two generated flags are named --x and --nox — the
disabling flag --no-x the claim asserts is not generated, since the code
prepends the bare prefix no to the field name without a separator. -/
theorem store_bool_flag_names_cex :
    (prepare_args false none (fun _ => none) [boolFieldX]).map keysOf =
      .ok ["--x", "--nox"]
    ∧ "--no-x" ∉ ["--x", "--nox"] :=
  ⟨rfl, by decide⟩

/-- C6, amended: for every boolean field x with default `False` declared
`store_bool`, `prepare_args` generates exactly two flags — the enabling
flag from the stripped field name and the disabling flag from the field
name with the bare prefix no (a dash separates them only when the field
name begins with an underscore) — with defaults `False` and `True`
respectively, opposite `const` values (`True` and `False`), both
`store_const`, and one identical dest equal to the field name. -/
theorem store_bool_expansion_amended :
    ∀ (x h : String) (cliSpec : String → Option ArgMeta),
      startsDoubleU x = false →
      ∃ kw1 kw2,
        prepare_args false none cliSpec
          [⟨x, some .tyBool, some (.pbool false),
            some (.inline ⟨some h, some "store_bool", none, none, none,
              none, none, none, none⟩)⟩] =
          .ok [("--" ++ dashed (lstripU x), kw1),
               ("--" ++ dashed (lstripU ("no" ++ x)), kw2)]
        ∧ kw1.defaultV = some (.pbool false)
        ∧ kw2.defaultV = some (.pbool true)
        ∧ kw1.const = some (.pbool true)
        ∧ kw2.const = some (.pbool false)
        ∧ kw1.dest = some x
        ∧ kw2.dest = some x
        ∧ kw1.action = "store_const"
        ∧ kw2.action = "store_const" := by
  intro x h cliSpec hx
  refine ⟨⟨"store_const", some "BOOL", some x, some (.pbool false),
    some (.pbool true), none, "enable " ++ h, none, none⟩,
    ⟨"store_const", some "BOOL", some x, some (.pbool true),
    some (.pbool false), none, "disable " ++ h, none, none⟩,
    ?_, rfl, rfl, rfl, rfl, rfl, rfl, rfl, rfl⟩
  have hno := startsDoubleU_no_append x
  have hne := flagOn_ne_flagOff x
  simp [prepare_args, fieldEntries, resolveMeta, storeBoolCopies,
    pyNotDefault, truthyPV, List.foldlM, List.mapM, List.mapM.loop,
    attrParserArgs, kwargsOf, hx, hno, pyInsert, hne, tyName, pyUpper,
    Except.map, Except.pure, Except.bind, bind, pure, Functor.map,
    Seq.seq]

/-- C6, witness for the amended theorem at the concrete boolean field x
with help text verbosity. -/
theorem store_bool_expansion_amended_w :
    ∃ kw1 kw2,
      prepare_args false none (fun _ => none)
        [⟨"x", some .tyBool, some (.pbool false),
          some (.inline ⟨some "verbosity", some "store_bool", none, none,
            none, none, none, none, none⟩)⟩] =
        .ok [("--" ++ dashed (lstripU "x"), kw1),
             ("--" ++ dashed (lstripU ("no" ++ "x")), kw2)]
      ∧ kw1.defaultV = some (.pbool false)
      ∧ kw2.defaultV = some (.pbool true)
      ∧ kw1.const = some (.pbool true)
      ∧ kw2.const = some (.pbool false)
      ∧ kw1.dest = some "x"
      ∧ kw2.dest = some "x"
      ∧ kw1.action = "store_const"
      ∧ kw2.action = "store_const" :=
  store_bool_expansion_amended "x" "verbosity" (fun _ => none) rfl

/-- C7: the IPv4 validator accepts the canonical address 10.0.0.1, always
accepts the `UNCHANGED` sentinel without parsing, and rejects the
non-canonical 10.0.0.01 with an error naming the canonical form
10.0.0.1. -/
theorem check_ip4_canonical_scenarios :
    check_ip4 "mgmt_vip" (PV.pstr "10.0.0.1") = .ok ()
    ∧ (∀ n, check_ip4 n PV.unchangedS = .ok ())
    ∧ check_ip4 "mgmt_vip" (PV.pstr "10.0.0.01") =
        .error ("mgmt_vip" ++ ": invalid ip4 address " ++ "10.0.0.01"
          ++ " Error: IP is not in canonical form."
          ++ "Canonical form of IP can be " ++ "10.0.0.1") := by
  refine ⟨rfl, fun n => rfl, rfl⟩

/-- C8: `from_args` on a plain dict input reads the local `_parsed_args`
without it ever being assigned (the `isinstance` branch only covers
`argparse.Namespace`), so the dict case of its own declared input type
crashes with an unbound-local error instead of building the instance; the
namespace case splits, constructs and returns instance plus remainder. -/
theorem from_args_dict_unbound_local :
    from_args [c8FieldReq, c8FieldOpt] "" (.pdict c8Input) true =
      .error
        "UnboundLocalError: local variable _parsed_args referenced before assignment"
    ∧ from_args [c8FieldReq, c8FieldOpt] "" (.pnamespace c8Input) true =
      .ok (⟨[.pstr "a"], [("f2", .pstr "b")]⟩, [("zz", .pint 1)]) :=
  ⟨rfl, rfl⟩

/-- C9: when the registry misses the requested leaf path, resolution falls
back to the parent path; a dict-item parent yields a synthesized member
`Param` (the member key appended to the collection's storage path), and
any other parent raises `UnknownParamError` naming the offending key path,
which `ParamsList.from_args` propagates to the caller. -/
theorem params_list_resolution :
    (∀ (reg : String → Option RegEntry) (s : String) (d : ParamDictItemM),
      reg (kpStr (kpOfStr s)) = none →
      reg (kpStr (kpParent (kpOfStr s))) = some (.dictItem d) →
      resolveParam reg s =
        .ok ⟨kpOfStr s, d.keypath ++ [kpLeaf (kpOfStr s)], d.fpath⟩
      ∧ paramsListFromArgs reg [s] =
        .ok [⟨kpOfStr s, d.keypath ++ [kpLeaf (kpOfStr s)], d.fpath⟩])
    ∧ (∀ (reg : String → Option RegEntry) (s : String),
      reg (kpStr (kpOfStr s)) = none →
      (∀ d, reg (kpStr (kpParent (kpOfStr s))) ≠ some (.dictItem d)) →
      resolveParam reg s =
        .error ("UnknownParamError: " ++ kpStr (kpOfStr s))
      ∧ paramsListFromArgs reg [s] =
        .error ("UnknownParamError: " ++ kpStr (kpOfStr s))) := by
  constructor
  · intro reg s d h1 h2
    have hres : resolveParam reg s =
        .ok ⟨kpOfStr s, d.keypath ++ [kpLeaf (kpOfStr s)], d.fpath⟩ := by
      simp [resolveParam, h1, h2]
    refine ⟨hres, ?_⟩
    simp [paramsListFromArgs, List.mapM, List.mapM.loop, hres]
  · intro reg s h1 h2
    have hres : resolveParam reg s =
        .error ("UnknownParamError: " ++ kpStr (kpOfStr s)) := by
      cases hp : reg (kpStr (kpParent (kpOfStr s))) with
      | none => simp [resolveParam, h1, hp]
      | some entry =>
        cases entry with
        | dictItem d => exact absurd hp (h2 d)
        | leafP p => simp [resolveParam, h1, hp]
    refine ⟨hres, ?_⟩
    simp [paramsListFromArgs, List.mapM, List.mapM.loop, hres]

/-- C9, witness: member fallback against the concrete registry and the
unknown-path error for an unregistered path. -/
theorem params_list_resolution_w :
    resolveParam c9Reg "swupgrade/repo/1.2.3-4" =
      .ok ⟨["swupgrade", "repo", "1.2.3-4"],
        ["eos", "swupgrade", "repos", "1.2.3-4"], some "release.sls"⟩
    ∧ resolveParam c9Reg "nosuch/path" =
      .error ("UnknownParamError: " ++ "nosuch/path") :=
  ⟨(params_list_resolution.1 c9Reg "swupgrade/repo/1.2.3-4" c9DictItem rfl
      rfl).1,
   (params_list_resolution.2 c9Reg "nosuch/path" rfl
      (fun _ h => Option.noConfusion h)).1⟩

/-- C10: every successfully constructed `SWUpdateRepo` source is exactly a
special sentinel, an http(s) string, or a resolved absolute path; a `None`
source converts to the `UNCHANGED` sentinel; and the is-special, is-local
and is-remote classification is mutually exclusive and exhaustive. -/
theorem swupdate_source_classification :
    (∀ fs rel src st, mkSWUpdateRepo fs rel src = .ok st →
      (isSpecialSrc st.source = true
        ∨ (∃ s, st.source = SrcVal.sstr s ∧ isHttp s = true)
        ∨ (∃ p, st.source = SrcVal.spath p ∧ isAbs p = true)))
    ∧ (∀ fs rel, mkSWUpdateRepo fs rel SrcIn.pynone =
        .ok ⟨rel, SrcVal.sent Sentinel.unchanged⟩)
    ∧ (∀ st : SWUpdateRepoState,
        (repoIsSpecial st || repoIsLocal st || repoIsRemote st) = true
        ∧ ¬(repoIsSpecial st = true ∧ repoIsLocal st = true)
        ∧ ¬(repoIsSpecial st = true ∧ repoIsRemote st = true)
        ∧ ¬(repoIsLocal st = true ∧ repoIsRemote st = true)) := by
  refine ⟨fun fs rel src st h => ?_, fun fs rel => rfl, fun st => ?_⟩
  · unfold mkSWUpdateRepo at h
    cases hc : checkSource fs (sourceConverter src) with
    | error e => rw [hc] at h; cases h
    | ok u =>
      rw [hc] at h
      injection h with h2
      subst h2
      exact postInit_classify fs src
  · cases hb1 : isSpecialSrc st.source <;> cases hb2 : isPathSrc st.source <;>
      simp [repoIsSpecial, repoIsLocal, repoIsRemote, hb1, hb2]

/-- C10, witness: a remote http source constructed on the empty filesystem
classified by the theorem. -/
theorem swupdate_source_classification_w :
    mkSWUpdateRepo emptyFS "r" (SrcIn.sstr "http://host/repo") =
      .ok ⟨"r", SrcVal.sstr "http://host/repo"⟩
    ∧ (isSpecialSrc (SrcVal.sstr "http://host/repo") = true
        ∨ (∃ s, SrcVal.sstr "http://host/repo" = SrcVal.sstr s
            ∧ isHttp s = true)
        ∨ (∃ p, SrcVal.sstr "http://host/repo" = SrcVal.spath p
            ∧ isAbs p = true)) :=
  ⟨rfl,
   swupdate_source_classification.1 emptyFS "r"
     (SrcIn.sstr "http://host/repo") ⟨"r", SrcVal.sstr "http://host/repo"⟩
     rfl⟩

end CortxPrvsnr
